import Mathlib

/-!
Verification of the SnackScript compiler's optimizer (`src/optimizer.js`) and
generator (`src/generator.js`) against their natural-language specification.

The JavaScript IR is shallowly embedded: IR nodes (the tagged objects built by
`src/core.js`) and the raw JavaScript values that flow through the optimizer
(numbers, bigints, strings, booleans, arrays, `undefined`) are all modelled by
one inductive type `Val`, mirroring the fact that `optimize` and `gen` receive
and return arbitrary JavaScript values.  Fallible evaluation (JavaScript
`TypeError` / `RangeError` throws) is modelled with `Except`.

Modelling conventions:
* JavaScript `Number` values are modelled exactly, as rationals.  Source
  literals are finite decimals, hence exact rationals; `+`, `-`, `*`, `/` and
  order comparisons on them are modelled by exact rational arithmetic
  (IEEE-754 rounding, `NaN` and the infinities are outside the model: the
  operations whose double result is not the exact rational value — division by
  zero and fractional powers — are mapped to the explicit `JSErr.unmodelled`
  marker rather than silently approximated).
* JavaScript `BigInt` values are modelled by `ℤ`; BigInt division truncates
  toward zero and BigInt division by zero and negative exponents throw
  `RangeError`, exactly as in the host.
* Mixing a `Number` and a `BigInt` in an arithmetic operator throws
  `TypeError` in the host; the model does the same.
* JavaScript object identity (`===` on nodes), which the analyzer establishes
  for `Variable` entities ("referenced by identity from all use sites"), is
  modelled by an allocation id carried on `Variable` nodes; `===` on two
  distinct composite objects is `false`.
-/

namespace SnackScript

/-- Errors thrown by the host while the optimizer or generator runs, plus an
explicit marker for Number results that the exact-rational model does not
represent (division by zero yielding `Infinity`, fractional powers). -/
inductive JSErr where
  | typeError : JSErr
  | rangeError : JSErr
  | unmodelled : JSErr
deriving DecidableEq, Repr

/-- JavaScript values flowing through the compiler: primitives, arrays, and
the IR nodes of `src/core.js` (discriminated by their `kind` tag).  Field
names and order follow the constructors in `src/core.js`.  `Variable` nodes
additionally carry an allocation id modelling JavaScript object identity. -/
inductive Val where
  | num : ℚ → Val
  | big : ℤ → Val
  | str : String → Val
  | bool : Bool → Val
  | undef : Val
  | list : List Val → Val
  | program : List Val → Val
  | variableDeclaration : Val → Val → Val
  | functionDeclaration : Val → Val
  | func : ℕ → String → List Val → Option (List Val) → Val → Val
  | var : ℕ → String → Val → Val
  | param : ℕ → String → Val
  | increment : Val → Val
  | decrement : Val → Val
  | assignment : Val → Val → Val
  | addAssignment : Val → Val → Val
  | breakStatement : Val
  | returnStatement : Val → Val
  | ifStatement : Val → List Val → Val → Val
  | whileStatement : Val → List Val → Val
  | forRangeStatement : Val → Val → Val → Val → List Val → Val
  | forStatement : Val → Val → List Val → Val
  | binaryExpression : Val → Val → Val → Val → Val
  | unaryExpression : Val → Val → Val → Val
  | arrayExpression : List Val → Val
  | memberExpression : Val → Val → Val → Val → Val
  | functionCall : Val → List Val → Val → Val
  | constructorCall : Val → List Val → Val → Val
  | print : List Val → Val
  | emptyArray : Val → Val
  | emptyOptional : Val → Val
  | typeDeclaration : List Val → Val
  | fieldDecl : String → Val → Val
  | forLoop : Val → Val → List Val → Val
  | tupleExpression : List Val → Val
  | dictExpression : List Val → Val
  | integerLiteral : Val → Val
  | stringLiteral : Val → Val
  | booleanLiteral : Val → Val

/-- The `kind` discriminator string of a value: `some k` for IR node objects,
`none` for primitives and arrays (whose `.kind` is `undefined`). -/
def kindOf : Val → Option String
  | .program _ => some "Program"
  | .variableDeclaration _ _ => some "VariableDeclaration"
  | .functionDeclaration _ => some "FunctionDeclaration"
  | .func _ _ _ _ _ => some "Function"
  | .var _ _ _ => some "Variable"
  | .param _ _ => some "Parameter"
  | .increment _ => some "Increment"
  | .decrement _ => some "Decrement"
  | .assignment _ _ => some "Assignment"
  | .addAssignment _ _ => some "AddAssignment"
  | .breakStatement => some "BreakStatement"
  | .returnStatement _ => some "ReturnStatement"
  | .ifStatement _ _ _ => some "IfStatement"
  | .whileStatement _ _ => some "WhileStatement"
  | .forRangeStatement _ _ _ _ _ => some "ForRangeStatement"
  | .forStatement _ _ _ => some "ForStatement"
  | .binaryExpression _ _ _ _ => some "BinaryExpression"
  | .unaryExpression _ _ _ => some "UnaryExpression"
  | .arrayExpression _ => some "ArrayExpression"
  | .memberExpression _ _ _ _ => some "MemberExpression"
  | .functionCall _ _ _ => some "FunctionCall"
  | .constructorCall _ _ _ => some "ConstructorCall"
  | .print _ => some "Print"
  | .emptyArray _ => some "EmptyArray"
  | .emptyOptional _ => some "EmptyOptional"
  | .typeDeclaration _ => some "TypeDeclaration"
  | .fieldDecl _ _ => some "Field"
  | .forLoop _ _ _ => some "ForLoop"
  | .tupleExpression _ => some "TupleExpression"
  | .dictExpression _ => some "DictExpression"
  | .integerLiteral _ => some "IntegerLiteral"
  | .stringLiteral _ => some "StringLiteral"
  | .booleanLiteral _ => some "BooleanLiteral"
  | _ => none

/-- JavaScript strict equality `===`, restricted to the comparisons the
optimizer performs: value equality on primitives, object identity on nodes.
Identity of `Variable` entities is their allocation id; two composite objects
built at distinct allocation sites are never `===`. -/
def jsStrictEq : Val → Val → Bool
  | .num a, .num b => a = b
  | .big a, .big b => a = b
  | .str a, .str b => a = b
  | .bool a, .bool b => a = b
  | .undef, .undef => true
  | .var i _ _, .var j _ _ => i = j
  | _, _ => false

/-- JavaScript truthiness of a value (`if (v)`): `undefined`, `false`, `0`,
`0n` and `""` are falsy; every object and array is truthy. -/
def jsTruthy : Val → Bool
  | .num q => q ≠ 0
  | .big z => z ≠ 0
  | .str s => s ≠ ""
  | .bool b => b
  | .undef => false
  | _ => true

/-- The test `e.left.constructor === Number` of `src/optimizer.js`. -/
def isNumberVal : Val → Bool
  | .num _ => true
  | _ => false

/-- The test `[Number, BigInt].includes(e.constructor)` of `src/optimizer.js`:
the value is a compile-time numeric constant (float-class or integer-class). -/
def isNumericConst : Val → Bool
  | .num _ => true
  | .big _ => true
  | _ => false

/-- `isZero` from `src/optimizer.js`: `n === 0 || n === 0n`. -/
def isZero : Val → Bool
  | .num q => q = 0
  | .big z => z = 0
  | _ => false

/-- `isOne` from `src/optimizer.js`: `n === 1 || n === 1n`. -/
def isOne : Val → Bool
  | .num q => q = 1
  | .big z => z = 1
  | _ => false

/-- Host `+` on two numeric constants: exact on same-class operands, a
`TypeError` on a Number/BigInt mix (as in JavaScript). -/
def jsAdd : Val → Val → Except JSErr Val
  | .num a, .num b => .ok (.num (a + b))
  | .big a, .big b => .ok (.big (a + b))
  | _, _ => .error .typeError

/-- Host `-` on two numeric constants. -/
def jsSub : Val → Val → Except JSErr Val
  | .num a, .num b => .ok (.num (a - b))
  | .big a, .big b => .ok (.big (a - b))
  | _, _ => .error .typeError

/-- Host `*` on two numeric constants. -/
def jsMul : Val → Val → Except JSErr Val
  | .num a, .num b => .ok (.num (a * b))
  | .big a, .big b => .ok (.big (a * b))
  | _, _ => .error .typeError

/-- Host `/` on two numeric constants.  Number division by zero yields
`Infinity`/`NaN` in the host, which the exact model cannot represent
(`unmodelled`); BigInt division truncates toward zero and throws `RangeError`
on a zero divisor. -/
def jsDiv : Val → Val → Except JSErr Val
  | .num a, .num b => if b = 0 then .error .unmodelled else .ok (.num (a / b))
  | .big a, .big b => if b = 0 then .error .rangeError else .ok (.big (Int.tdiv a b))
  | _, _ => .error .typeError

/-- Host `**` on two numeric constants.  Number exponentiation is modelled for
integer exponents (a fractional exponent generally has an irrational double
result: `unmodelled`); BigInt exponentiation throws `RangeError` on a negative
exponent. -/
def jsPow : Val → Val → Except JSErr Val
  | .num a, .num b =>
      if b.den = 1 then
        if 0 ≤ b.num ∨ a ≠ 0 then .ok (.num (a ^ b.num)) else .error .unmodelled
      else .error .unmodelled
  | .big a, .big b =>
      if b < 0 then .error .rangeError else .ok (.big (a ^ b.toNat))
  | _, _ => .error .typeError

/-- Host `<` on two numeric constants: exact order comparison, including the
mathematical Number/BigInt mixed comparison JavaScript performs. -/
def jsLt : Val → Val → Except JSErr Val
  | .num a, .num b => .ok (.bool (a < b))
  | .big a, .big b => .ok (.bool (a < b))
  | .num a, .big b => .ok (.bool (a < (b : ℚ)))
  | .big a, .num b => .ok (.bool ((a : ℚ) < b))
  | _, _ => .error .typeError

/-- Host `<=` on two numeric constants. -/
def jsLe : Val → Val → Except JSErr Val
  | .num a, .num b => .ok (.bool (a ≤ b))
  | .big a, .big b => .ok (.bool (a ≤ b))
  | .num a, .big b => .ok (.bool (a ≤ (b : ℚ)))
  | .big a, .num b => .ok (.bool ((a : ℚ) ≤ b))
  | _, _ => .error .typeError

/-- Host `>=` on two numeric constants. -/
def jsGe : Val → Val → Except JSErr Val
  | .num a, .num b => .ok (.bool (b ≤ a))
  | .big a, .big b => .ok (.bool (b ≤ a))
  | .num a, .big b => .ok (.bool ((b : ℚ) ≤ a))
  | .big a, .num b => .ok (.bool (b ≤ (a : ℚ)))
  | _, _ => .error .typeError

/-- Host `>` on two numeric constants. -/
def jsGt : Val → Val → Except JSErr Val
  | .num a, .num b => .ok (.bool (b < a))
  | .big a, .big b => .ok (.bool (b < a))
  | .num a, .big b => .ok (.bool ((b : ℚ) < a))
  | .big a, .num b => .ok (.bool (b < (a : ℚ)))
  | _, _ => .error .typeError

/-- Host `===` on two numeric constants (the operator `src/optimizer.js` uses
for the language's `==`): exact equality on same-class operands, always
`false` on a Number/BigInt mix. -/
def jsSeq : Val → Val → Except JSErr Val
  | .num a, .num b => .ok (.bool (a = b))
  | .big a, .big b => .ok (.bool (a = b))
  | _, _ => .ok (.bool false)

/-- Host `!==` on two numeric constants. -/
def jsSne : Val → Val → Except JSErr Val
  | .num a, .num b => .ok (.bool (a ≠ b))
  | .big a, .big b => .ok (.bool (a ≠ b))
  | _, _ => .ok (.bool true)

/-- JavaScript `String.prototype.endsWith`, implemented on the character
list (the byte-position-based core `String.endsWith` does not reduce in the
kernel). -/
def strEndsWith (s suffix : String) : Bool :=
  suffix.data.isSuffixOf s.data

/-- JavaScript `Array.prototype.join(sep)` on a list of strings. -/
def joinSep (sep : String) : List String → String
  | [] => ""
  | [x] => x
  | x :: xs => x ++ sep ++ joinSep sep xs

/-- The eleven `if (e.op === ...) return ...` constant-folding lines of
`BinaryExpression` in `src/optimizer.js` (lines 115-125), reached when both
operands are numeric constants; `none` when `op` is none of the eleven
operators (e.g. `%`), in which case control falls through to the identity
rules further down the rule. -/
def foldBothConst (op : String) (l r : Val) : Option (Except JSErr Val) :=
  match op with
  | "+" => some (jsAdd l r)
  | "-" => some (jsSub l r)
  | "*" => some (jsMul l r)
  | "/" => some (jsDiv l r)
  | "**" => some (jsPow l r)
  | "<" => some (jsLt l r)
  | "<=" => some (jsLe l r)
  | "==" => some (jsSeq l r)
  | "!=" => some (jsSne l r)
  | ">=" => some (jsGe l r)
  | ">" => some (jsGt l r)
  | _ => none

/-- One level of array flattening, as performed by JavaScript `flatMap`: an
array result is spliced into the surrounding statement list, any other result
becomes a single element. -/
def flatten1 : Val → List Val
  | .list l => l
  | v => [v]

mutual

/-- `optimize` from `src/optimizer.js`: `optimizers?.[node.kind]?.(node) ?? node`.
Dispatch is on `node.kind`; a node whose kind has no registered rule — and any
primitive or array, whose `.kind` is `undefined` — is returned unchanged, and
dereferencing `.kind` on `undefined` itself throws `TypeError`.  Each rule
follows the corresponding entry of the `optimizers` table; the in-place field
mutations of the source are modelled by rebuilding the node with the optimized
children. -/
def optimize : Val → Except JSErr Val
  | .undef => .error .typeError
  | .program stmts => do
      pure (.program (← flatOpt stmts))
  | .variableDeclaration v i => do
      let v' ← optimize v
      let i' ← optimize i
      pure (.variableDeclaration v' i')
  | .functionDeclaration f => do
      pure (.functionDeclaration (← optimize f))
  | .func i n ps body ty => optFunBody i n ps ty body
  | .increment v => do pure (.increment (← optimize v))
  | .decrement v => do pure (.decrement (← optimize v))
  | .assignment tgt src => do
      let src' ← optimize src
      let tgt' ← optimize tgt
      if jsStrictEq src' tgt' then pure (.list []) else pure (.assignment tgt' src')
  | .breakStatement => pure .breakStatement
  | .returnStatement e => do pure (.returnStatement (← optimize e))
  | .ifStatement t cons alt => do
      let t' ← optimize t
      let cons' ← flatOpt cons
      let alt' ←
        (if strEndsWith ((kindOf alt).getD "") "IfStatement" then optimize alt
         else optAltList alt)
      match t' with
      | .bool b => if b then pure (.list cons') else pure alt'
      | _ => pure (.ifStatement t' cons' alt')
  | .whileStatement t body => do
      let t' ← optimize t
      if jsStrictEq t' (.bool false) then pure (.list [])
      else do pure (.whileStatement t' (← flatOpt body))
  | .forRangeStatement it low op high body => do
      let _ ← optimize it
      let low' ← optimize low
      let _ ← optimize op
      let high' ← optimize high
      let _ ← flatOpt body
      match low', high' with
      | .num a, .num b => if b < a then pure (.list []) else pure .undef
      | _, _ => pure .undef
  | .forStatement it coll body => do
      let it' ← optimize it
      let coll' ← optimize coll
      let body' ← flatOpt body
      if kindOf coll' = some "EmptyArray" then pure (.list [])
      else pure (.forStatement it' coll' body')
  | .binaryExpression op l r ty => do
      let op' ← optimize op
      let l' ← optimize l
      let r' ← optimize r
      if jsStrictEq op' (.str "??") then
        if kindOf l' = some "EmptyOptional" then pure r'
        else pure (.binaryExpression op' l' r' ty)
      else if jsStrictEq op' (.str "&&") then
        if jsStrictEq l' (.bool true) then pure r'
        else if jsStrictEq r' (.bool true) then pure l'
        else pure (.binaryExpression op' l' r' ty)
      else if jsStrictEq op' (.str "||") then
        if jsStrictEq l' (.bool false) then pure r'
        else if jsStrictEq r' (.bool false) then pure l'
        else pure (.binaryExpression op' l' r' ty)
      else if isNumericConst l' then
        match
          (if isNumericConst r' then
             match op' with | .str s => foldBothConst s l' r' | _ => none
           else none) with
        | some res => res
        | none =>
          if isZero l' && jsStrictEq op' (.str "+") then pure r'
          else if isOne l' && jsStrictEq op' (.str "*") then pure r'
          else if isZero l' && jsStrictEq op' (.str "-") then
            pure (.unaryExpression (.str "-") r' .undef)
          else if isOne l' && jsStrictEq op' (.str "**") then pure l'
          else if isZero l' && (jsStrictEq op' (.str "*") || jsStrictEq op' (.str "/")) then
            pure l'
          else pure (.binaryExpression op' l' r' ty)
      else if isNumericConst r' then
        if (jsStrictEq op' (.str "+") || jsStrictEq op' (.str "-")) && isZero r' then pure l'
        else if (jsStrictEq op' (.str "*") || jsStrictEq op' (.str "/")) && isOne r' then pure l'
        else if jsStrictEq op' (.str "*") && isZero r' then pure r'
        else if jsStrictEq op' (.str "**") && isZero r' then pure (.num 1)
        else pure (.binaryExpression op' l' r' ty)
      else pure (.binaryExpression op' l' r' ty)
  | .unaryExpression op operand ty => do
      let op' ← optimize op
      let o' ← optimize operand
      match o' with
      | .num q =>
          if jsStrictEq op' (.str "-") then pure (.num (-q))
          else pure (.unaryExpression op' (.num q) ty)
      | _ => pure (.unaryExpression op' o' ty)
  | .arrayExpression elems => do pure (.arrayExpression (← mapOpt elems))
  | .memberExpression obj op fld ty => do
      pure (.memberExpression (← optimize obj) op fld ty)
  | .functionCall callee args ty => do
      let c' ← optimize callee
      pure (.functionCall c' (← mapOpt args) ty)
  | .constructorCall callee args ty => do
      let c' ← optimize callee
      pure (.constructorCall c' (← mapOpt args) ty)
  | .print exprs => do pure (.print (← mapOpt exprs))
  | v => pure v
termination_by structural v => v

/-- The `if (f.body) f.body = f.body.flatMap(optimize)` step of the
`Function` rule: an absent body (an intrinsic function) is left alone. -/
def optFunBody (i : ℕ) (n : String) (ps : List Val) (ty : Val) :
    Option (List Val) → Except JSErr Val
  | some b => do pure (.func i n ps (some (← flatOpt b)) ty)
  | none => pure (.func i n ps none ty)
termination_by structural b => b

/-- The `s.alternate = s.alternate.flatMap(optimize)` step of the
`IfStatement` rule, reached when the alternate is not an else-if chain:
calling `flatMap` on anything but an array throws. -/
def optAltList : Val → Except JSErr Val
  | .list l => do pure (.list (← flatOpt l))
  | _ => .error .typeError
termination_by structural v => v

/-- `statements.flatMap(optimize)` over a statement list: optimize each
element in order and flatten one level of arrays, propagating the first
thrown error. -/
def flatOpt : List Val → Except JSErr (List Val)
  | [] => pure []
  | v :: vs => do
      let r ← optimize v
      let rest ← flatOpt vs
      pure (flatten1 r ++ rest)
termination_by structural l => l

/-- `xs.map(optimize)` over an argument or element list: element-wise, no
flattening. -/
def mapOpt : List Val → Except JSErr (List Val)
  | [] => pure []
  | v :: vs => do
      let r ← optimize v
      let rest ← mapOpt vs
      pure (r :: rest)
termination_by structural l => l

end

/-- Whether a value's kind has a registered rule in the `optimizers` table of
`src/optimizer.js` (the table's twenty keys); primitives and arrays have no
`kind` and so never have a rule. -/
def hasOptimizerRule (v : Val) : Bool :=
  match kindOf v with
  | some k =>
      ["Program", "VariableDeclaration", "FunctionDeclaration", "Function",
       "Increment", "Decrement", "Assignment", "BreakStatement",
       "ReturnStatement", "IfStatement", "WhileStatement", "ForRangeStatement",
       "ForStatement", "BinaryExpression", "UnaryExpression", "ArrayExpression",
       "MemberExpression", "FunctionCall", "ConstructorCall", "Print"].contains k
  | none => false

/-- Stated from the spec's words: "the literal equal to evaluating `op` on
`a`,`b` in the host numeric semantics", for the eleven folded operators (the
language's `==`/`!=` are the host's strict `===`/`!==`); host evaluations
that throw (`TypeError` on a Number/BigInt mix, `RangeError` on BigInt
division by zero or a negative BigInt exponent) yield the corresponding
error. -/
def hostEval : String → Val → Val → Except JSErr Val
  | "+", a, b => jsAdd a b
  | "-", a, b => jsSub a b
  | "*", a, b => jsMul a b
  | "/", a, b => jsDiv a b
  | "**", a, b => jsPow a b
  | "<", a, b => jsLt a b
  | "<=", a, b => jsLe a b
  | "==", a, b => jsSeq a b
  | "!=", a, b => jsSne a b
  | ">=", a, b => jsGe a b
  | ">", a, b => jsGt a b
  | _, _, _ => .error .typeError

/-- Decimal rendering of a JavaScript `Number` (modelled for rationals with a
terminating decimal expansion, which is what source literals and the exact
arithmetic on them produce; any other rational is rendered in fraction
notation as a model fallback — the host would print a rounded decimal). -/
def qToString (q : ℚ) : String :=
  if q.den = 1 then toString q.num
  else
    let sign := if q < 0 then "-" else ""
    let n := q.num.natAbs
    let d := q.den
    match (List.range 18).find? (fun k => (10 ^ k) % d = 0) with
    | some k =>
        let scaled := n * (10 ^ k) / d
        let ip := scaled / 10 ^ k
        let fp := scaled % 10 ^ k
        let fpStr := toString fp
        let pad := String.mk (List.replicate (k - fpStr.length) '0')
        sign ++ toString ip ++ "." ++ pad ++ fpStr
    | none => sign ++ toString n ++ "/" ++ toString d

mutual

/-- JavaScript string conversion of a value, as performed by the generator's
template literals: strings pass through, numbers and bigints render in
decimal, booleans render as `true`/`false`, `undefined` renders as
"undefined", arrays join their elements with commas, and IR node objects
render as "[object Object]". -/
def jsTemplate : Val → String
  | .str s => s
  | .num q => qToString q
  | .big z => toString z
  | .bool b => if b then "true" else "false"
  | .undef => "undefined"
  | .list l => jsTemplateList l
  | _ => "[object Object]"
termination_by structural v => v

/-- JavaScript `Array.prototype.toString`: elements joined with commas, with
`undefined` elements rendered empty. -/
def jsTemplateList : List Val → String
  | [] => ""
  | [v] => match v with | .undef => "" | v => jsTemplate v
  | v :: vs =>
      (match v with | .undef => "" | v => jsTemplate v) ++ "," ++ jsTemplateList vs
termination_by structural l => l

end

/-- `e.value.toString()`: throws on `undefined`, otherwise converts as a
template literal would. -/
def jsToString : Val → Except JSErr String
  | .undef => .error .typeError
  | v => .ok (jsTemplate v)

/-- JSON escaping of one character (backslash, quote and newline get a
backslash escape). -/
def escapeJsonChar (c : Char) : List Char :=
  if c = '\\' then ['\\', '\\']
  else if c = '\"' then ['\\', '\"']
  else if c = '\n' then ['\\', 'n']
  else [c]

/-- `JSON.stringify(e.value)`: a string value is quoted and escaped;
`undefined` maps to `undefined`; other values are rendered via template
conversion (a simplification of JSON.stringify, which the `StringLiteral`
handler only ever receives strings through). -/
def jsonQuote : Val → Val
  | .str s => .str ("\"" ++ String.mk ((s.data.map escapeJsonChar).flatten) ++ "\"")
  | .undef => .undef
  | v => .str (jsTemplate v)

/-- Reading `entity.name`: throws on `undefined`, yields the name of an
entity node carrying one, and yields `none` (the JavaScript `undefined`
property value, a legal `Map` key) for every other object or primitive. -/
def jsGetName : Val → Except JSErr (Option String)
  | .undef => .error .typeError
  | .var _ n _ => pure (some n)
  | .func _ n _ _ _ => pure (some n)
  | .param _ n => pure (some n)
  | .fieldDecl n _ => pure (some n)
  | _ => pure none

/-- The mutable state private to one `generate` call: the name-mangling table
(a `Map` in insertion order, so its `size` is the list length) and the output
line buffer. -/
structure GenSt where
  nameMap : List (Option String × ℕ)
  output : List String

/-- Append one emitted line to the output buffer (`output.push(...)`). -/
def push (line : String) (st : GenSt) : GenSt :=
  { st with output := st.output ++ [line] }

/-- The mangled identifier `` `${entity.name}_${nameMap.get(entity.name)}` ``. -/
def mangled (nm : String) (i : ℕ) : String := s!"{nm}_{i}"

/-- `targetName` from `src/generator.js`: look the entity's declared *name*
up in the table (not the entity itself); on first encounter allocate the
suffix `nameMap.size + 1`. -/
def targetName (entity : Val) (st : GenSt) : Except JSErr (String × GenSt) := do
  let key ← jsGetName entity
  let nm := (key.map id).getD "undefined"
  match st.nameMap.lookup key with
  | some i => pure (mangled nm i, st)
  | none =>
      let i := st.nameMap.length + 1
      pure (mangled nm i, { st with nameMap := st.nameMap ++ [(key, i)] })

mutual

/-- `gen` from `src/generator.js` (the generator whose IR field names match
`src/core.js` and the test suite): `generators?.[node?.kind]?.(node) ?? node`.
The result is the updated generator state, the JavaScript value the call
evaluates to (the emitted fragment for expression handlers; statement
handlers return `undefined`, so the dispatcher's `?? node` makes the call
evaluate to the node itself), and the IR tree as it stands after the call,
rebuilt from the children the handler visited — the handlers assign no node
field, so this is the input, which is exactly what the frame claim asserts. -/
def gen : Val → GenSt → Except JSErr (GenSt × Val × Val)
  | .program stmts, st => do
      let (st1, _, afters) ← genSeq stmts st
      pure (st1, .program afters, .program afters)
  | .variableDeclaration v i, st => do
      let (st1, rv, av) ← gen v st
      let nm := jsTemplate rv
      let iv := jsTemplate i
      let st2 := push s!"let {nm} = {iv};" st1
      pure (st2, .variableDeclaration av i, .variableDeclaration av i)
  | .functionDeclaration f, st => do
      let (st1, rf, _) ← gen f st
      genFunTail f (jsTemplate rf) st1
  | .increment v, st => do
      let (st1, rv, av) ← gen v st
      let nm := jsTemplate rv
      pure (push s!"{nm}++;" st1, .increment av, .increment av)
  | .decrement v, st => do
      let (st1, rv, av) ← gen v st
      let nm := jsTemplate rv
      pure (push s!"{nm}--;" st1, .decrement av, .decrement av)
  | .var j n ty, st => do
      let (s, st1) ← targetName (.var j n ty) st
      pure (st1, .str s, .var j n ty)
  | .func j n ps body ty, st => do
      let (s, st1) ← targetName (.func j n ps body ty) st
      pure (st1, .str s, .func j n ps body ty)
  | .param j n, st => do
      let (s, st1) ← targetName (.param j n) st
      pure (st1, .str s, .param j n)
  | .breakStatement, st =>
      pure (push "break;" st, .breakStatement, .breakStatement)
  | .returnStatement e, st =>
      if jsTruthy e then do
        let (st1, re, ae) ← gen e st
        let es := jsTemplate re
        pure (push s!"return {es};" st1, .returnStatement ae, .returnStatement ae)
      else
        pure (push "return;" st, .returnStatement e, .returnStatement e)
  | .print exprs, st => do
      let (st1, rs, afters) ← genSeq exprs st
      let argsStr := joinSep ", " (rs.map jsTemplate)
      pure (push s!"console.log({argsStr});" st1, .print afters, .print afters)
  | .ifStatement t cons alt, st => do
      let (st1, rt, ta) ← gen t st
      let ts := jsTemplate rt
      let st2 := push s!"if ({ts}) \x7b" st1
      let (st3, _, acons) ← genSeq cons st2
      if strEndsWith ((kindOf alt).getD "") "IfStatement" then do
        let st4 := push "\x7d else" st3
        let (st5, _, aalt) ← gen alt st4
        pure (st5, .ifStatement ta acons aalt, .ifStatement ta acons aalt)
      else
        genElseList alt ta acons (push "\x7d else \x7b" st3)
  | .forRangeStatement it low op high body, st => do
      let (i, st1) ← targetName it st
      let cmp := if jsStrictEq op (.str "...") then "<=" else "<"
      let (st2, rlow, alow) ← gen low st1
      let (st3, rhigh, ahigh) ← gen high st2
      let ls := jsTemplate rlow
      let hs := jsTemplate rhigh
      let st4 := push s!"for (let {i} = {ls}; {i} {cmp} {hs}; {i}++) \x7b" st3
      let (st5, _, abody) ← genSeq body st4
      let st6 := push "\x7d" st5
      pure (st6, .forRangeStatement it alow op ahigh abody,
            .forRangeStatement it alow op ahigh abody)
  | .forStatement it coll body, st => do
      let (st1, rit, ait) ← gen it st
      let (st2, rcoll, acoll) ← gen coll st1
      let its := jsTemplate rit
      let cs := jsTemplate rcoll
      let st3 := push s!"for (let {its} of {cs}) \x7b" st2
      let (st4, _, abody) ← genSeq body st3
      let st5 := push "\x7d" st4
      pure (st5, .forStatement ait acoll abody, .forStatement ait acoll abody)
  | .binaryExpression op l r ty, st => do
      let (st1, rl, al) ← gen l st
      let (st2, rr, ar) ← gen r st1
      let opStr := jsTemplate op
      let mapped := if opStr = "==" then "===" else if opStr = "!=" then "!==" else opStr
      let ls := jsTemplate rl
      let rs := jsTemplate rr
      pure (st2, .str s!"({ls} {mapped} {rs})", .binaryExpression op al ar ty)
  | .unaryExpression op o ty, st => do
      let (st1, ro, ao) ← gen o st
      let xs := jsTemplate ro
      let ops := jsTemplate op
      let st2 := if jsStrictEq op (.str "print") then push s!"console.log({xs});" st1 else st1
      pure (st2, .str s!"({ops}{xs})", .unaryExpression op ao ty)
  | .integerLiteral v, st => do
      let s ← jsToString v
      pure (st, .str s, .integerLiteral v)
  | .stringLiteral v, st =>
      (match jsonQuote v with
       | .undef => pure (st, .stringLiteral v, .stringLiteral v)
       | r => pure (st, r, .stringLiteral v))
  | .booleanLiteral v, st => do
      let s ← jsToString v
      pure (st, .str s, .booleanLiteral v)
  | v, st => pure (st, v, v)
termination_by structural v _ => v

/-- The `} else { ... }` branch of the `IfStatement` handler, reached when
the alternate is not an else-if chain (the stray `console.log(s.alternate)`
of the source writes to the process console, not to the output buffer):
`forEach` on anything but an array throws. -/
def genElseList : Val → Val → List Val → GenSt → Except JSErr (GenSt × Val × Val)
  | .list l, ta, acons, st4 => do
      let (st5, _, aalt) ← genSeq l st4
      let st6 := push "\x7d" st5
      pure (st6, .ifStatement ta acons (.list aalt), .ifStatement ta acons (.list aalt))
  | _, _, _, _ => .error .typeError
termination_by structural v _ _ _ => v

/-- The part of the `FunctionDeclaration` handler that follows
`gen(d.fun)`: reading `.params`/`.body` off a non-Function (or an absent
body) throws. -/
def genFunTail : Val → String → GenSt → Except JSErr (GenSt × Val × Val)
  | .func j n ps body ty, fname, st1 => do
      let (st2, rps, aps) ← genSeq ps st1
      let paramsStr := joinSep ", " (rps.map jsTemplate)
      let st3 := push s!"function {fname}({paramsStr}) \x7b" st2
      genFunBody j n aps ty body st3
  | _, _, _ => .error .typeError
termination_by structural v _ _ => v

/-- The `d.fun.body.forEach(gen)` step plus closing brace of the
`FunctionDeclaration` handler. -/
def genFunBody (j : ℕ) (n : String) (aps : List Val) (ty : Val) :
    Option (List Val) → GenSt → Except JSErr (GenSt × Val × Val)
  | some b, st3 => do
      let (st4, _, ab) ← genSeq b st3
      let st5 := push "\x7d" st4
      pure (st5, .functionDeclaration (.func j n aps (some ab) ty),
            .functionDeclaration (.func j n aps (some ab) ty))
  | none, _ => .error .typeError
termination_by structural b _ => b

/-- Sequential generation of a node list (`forEach(gen)` / `.map(gen)`):
threads the generator state left to right, collecting the values the calls
evaluate to and the after-trees. -/
def genSeq : List Val → GenSt → Except JSErr (GenSt × List Val × List Val)
  | [], st => pure (st, [], [])
  | v :: vs, st => do
      let (st1, r, a) ← gen v st
      let (st2, rs, afters) ← genSeq vs st1
      pure (st2, r :: rs, a :: afters)
termination_by structural l _ => l

end

/-- `generate(program)` from `src/generator.js`: run the recursive walk with
a freshly created name-mangling table and output buffer (both discarded on
return) and join the emitted lines with newlines. -/
def generate (program : Val) : Except JSErr String := do
  let (st, _, _) ← gen program ⟨[], []⟩
  pure (joinSep "\n" st.output)

/-! Helper lemmas for reasoning about `Except` do-blocks and the generator's
append-only output buffer. -/

theorem exceptBind_eq_ok {ε α β : Type} {m : Except ε α} {f : α → Except ε β} {b : β}
    (h : m >>= f = .ok b) : ∃ a, m = .ok a ∧ f a = .ok b := by
  cases m with
  | error e => exact Except.noConfusion h
  | ok a => exact ⟨a, rfl, h⟩

theorem pushOutput (line : String) (st : GenSt) :
    (push line st).output = st.output ++ [line] := rfl

theorem outExt_refl {st : GenSt} : ∃ d, st.output = st.output ++ d :=
  ⟨[], by simp⟩

theorem outExt_of_eq {st st1 : GenSt} (h : st1.output = st.output) :
    ∃ d, st1.output = st.output ++ d := ⟨[], by simp [h]⟩

theorem outExt_trans {st st1 st2 : GenSt} (h1 : ∃ d, st1.output = st.output ++ d)
    (h2 : ∃ d, st2.output = st1.output ++ d) : ∃ d, st2.output = st.output ++ d := by
  obtain ⟨d1, hd1⟩ := h1
  obtain ⟨d2, hd2⟩ := h2
  exact ⟨d1 ++ d2, by rw [hd2, hd1, List.append_assoc]⟩

theorem outExt_push {st st1 : GenSt} (line : String)
    (h : ∃ d, st1.output = st.output ++ d) :
    ∃ d, (push line st1).output = st.output ++ d := by
  obtain ⟨d1, hd1⟩ := h
  exact ⟨d1 ++ [line], by rw [pushOutput, hd1, List.append_assoc]⟩

theorem gen_returnStatement_def (e : Val) (st : GenSt) :
    gen (.returnStatement e) st =
      if jsTruthy e then do
        let (st1, re, ae) ← gen e st
        let es := jsTemplate re
        pure (push s!"return {es};" st1, .returnStatement ae, .returnStatement ae)
      else
        pure (push "return;" st, .returnStatement e, .returnStatement e) := rfl

theorem gen_stringLiteral_def (v : Val) (st : GenSt) :
    gen (.stringLiteral v) st =
      (match jsonQuote v with
       | .undef => pure (st, .stringLiteral v, .stringLiteral v)
       | r => pure (st, r, .stringLiteral v)) := rfl

theorem targetName_frame {e : Val} {st : GenSt} {s : String} {st' : GenSt}
    (h : targetName e st = .ok (s, st')) : st'.output = st.output := by
  obtain ⟨k, hk, h⟩ := exceptBind_eq_ok h
  revert h
  cases List.lookup k st.nameMap <;> (intro h; cases h; rfl)

/-! The generator never mutates the IR (the after-tree of every successful
call is the input node) and only appends to the output buffer. -/

mutual

theorem gen_frame : ∀ (v : Val) (st st' : GenSt) (r a : Val),
    gen v st = .ok (st', r, a) → a = v ∧ ∃ d, st'.output = st.output ++ d
  | .num _, _, _, _, _ => fun h => by cases h; exact ⟨rfl, outExt_refl⟩
  | .big _, _, _, _, _ => fun h => by cases h; exact ⟨rfl, outExt_refl⟩
  | .str _, _, _, _, _ => fun h => by cases h; exact ⟨rfl, outExt_refl⟩
  | .bool _, _, _, _, _ => fun h => by cases h; exact ⟨rfl, outExt_refl⟩
  | .undef, _, _, _, _ => fun h => by cases h; exact ⟨rfl, outExt_refl⟩
  | .list _, _, _, _, _ => fun h => by cases h; exact ⟨rfl, outExt_refl⟩
  | .assignment _ _, _, _, _, _ => fun h => by cases h; exact ⟨rfl, outExt_refl⟩
  | .addAssignment _ _, _, _, _, _ => fun h => by cases h; exact ⟨rfl, outExt_refl⟩
  | .whileStatement _ _, _, _, _, _ => fun h => by cases h; exact ⟨rfl, outExt_refl⟩
  | .arrayExpression _, _, _, _, _ => fun h => by cases h; exact ⟨rfl, outExt_refl⟩
  | .memberExpression _ _ _ _, _, _, _, _ => fun h => by cases h; exact ⟨rfl, outExt_refl⟩
  | .functionCall _ _ _, _, _, _, _ => fun h => by cases h; exact ⟨rfl, outExt_refl⟩
  | .constructorCall _ _ _, _, _, _, _ => fun h => by cases h; exact ⟨rfl, outExt_refl⟩
  | .emptyArray _, _, _, _, _ => fun h => by cases h; exact ⟨rfl, outExt_refl⟩
  | .emptyOptional _, _, _, _, _ => fun h => by cases h; exact ⟨rfl, outExt_refl⟩
  | .typeDeclaration _, _, _, _, _ => fun h => by cases h; exact ⟨rfl, outExt_refl⟩
  | .fieldDecl _ _, _, _, _, _ => fun h => by cases h; exact ⟨rfl, outExt_refl⟩
  | .forLoop _ _ _, _, _, _, _ => fun h => by cases h; exact ⟨rfl, outExt_refl⟩
  | .tupleExpression _, _, _, _, _ => fun h => by cases h; exact ⟨rfl, outExt_refl⟩
  | .dictExpression _, _, _, _, _ => fun h => by cases h; exact ⟨rfl, outExt_refl⟩
  | .program stmts, st, st', r, a => fun h => by
      obtain ⟨⟨st1, rs, afters⟩, h1, h⟩ := exceptBind_eq_ok h
      obtain ⟨ha, hout⟩ := genSeq_frame stmts st st1 rs afters h1
      cases h
      exact ⟨by rw [ha], hout⟩
  | .print exprs, st, st', r, a => fun h => by
      obtain ⟨⟨st1, rs, afters⟩, h1, h⟩ := exceptBind_eq_ok h
      obtain ⟨ha, hout⟩ := genSeq_frame exprs st st1 rs afters h1
      cases h
      exact ⟨by rw [ha], outExt_push _ hout⟩
  | .variableDeclaration v i, st, st', r, a => fun h => by
      obtain ⟨⟨st1, rv, av⟩, h1, h⟩ := exceptBind_eq_ok h
      obtain ⟨ha, hout⟩ := gen_frame v st st1 rv av h1
      cases h
      exact ⟨by rw [ha], outExt_push _ hout⟩
  | .increment v, st, st', r, a => fun h => by
      obtain ⟨⟨st1, rv, av⟩, h1, h⟩ := exceptBind_eq_ok h
      obtain ⟨ha, hout⟩ := gen_frame v st st1 rv av h1
      cases h
      exact ⟨by rw [ha], outExt_push _ hout⟩
  | .decrement v, st, st', r, a => fun h => by
      obtain ⟨⟨st1, rv, av⟩, h1, h⟩ := exceptBind_eq_ok h
      obtain ⟨ha, hout⟩ := gen_frame v st st1 rv av h1
      cases h
      exact ⟨by rw [ha], outExt_push _ hout⟩
  | .var j n ty, st, st', r, a => fun h => by
      obtain ⟨⟨s, st1⟩, h1, h⟩ := exceptBind_eq_ok h
      cases h
      exact ⟨rfl, outExt_of_eq (targetName_frame h1)⟩
  | .func j n ps body ty, st, st', r, a => fun h => by
      obtain ⟨⟨s, st1⟩, h1, h⟩ := exceptBind_eq_ok h
      cases h
      exact ⟨rfl, outExt_of_eq (targetName_frame h1)⟩
  | .param j n, st, st', r, a => fun h => by
      obtain ⟨⟨s, st1⟩, h1, h⟩ := exceptBind_eq_ok h
      cases h
      exact ⟨rfl, outExt_of_eq (targetName_frame h1)⟩
  | .breakStatement, st, st', r, a => fun h => by
      cases h
      exact ⟨rfl, outExt_push _ outExt_refl⟩
  | .returnStatement e, st, st', r, a => fun h => by
      rw [gen_returnStatement_def] at h
      by_cases ht : jsTruthy e
      · rw [if_pos ht] at h
        obtain ⟨⟨st1, re, ae⟩, h1, h⟩ := exceptBind_eq_ok h
        obtain ⟨ha, hout⟩ := gen_frame e st st1 re ae h1
        cases h
        exact ⟨by rw [ha], outExt_push _ hout⟩
      · rw [if_neg ht] at h
        cases h
        exact ⟨rfl, outExt_push _ outExt_refl⟩
  | .ifStatement t cons alt, st, st', r, a => fun h0 => by
      obtain ⟨⟨st1, rt, ta⟩, h1, hA⟩ := exceptBind_eq_ok h0
      clear h0
      obtain ⟨⟨st3, rcons, acons⟩, h2, hB⟩ := exceptBind_eq_ok hA
      clear hA
      obtain ⟨hta, hout1⟩ := gen_frame t st st1 rt ta h1
      obtain ⟨hacons, hout2⟩ := genSeq_frame cons _ st3 rcons acons h2
      have houtTo3 : ∃ d, st3.output = st.output ++ d :=
        outExt_trans (outExt_push _ hout1) hout2
      dsimp only at hB
      by_cases hends : strEndsWith ((kindOf alt).getD "") "IfStatement"
      · rw [if_pos hends] at hB
        obtain ⟨⟨st5, ralt, aalt⟩, h3, hC⟩ := exceptBind_eq_ok hB
        clear hB
        obtain ⟨haalt, hout3⟩ := gen_frame alt _ st5 ralt aalt h3
        cases hC
        exact ⟨by rw [hta, hacons, haalt],
               outExt_trans houtTo3 (outExt_trans (outExt_push _ outExt_refl) hout3)⟩
      · rw [if_neg hends] at hB
        clear h1 h2
        revert hB
        cases alt <;> try (intro hB; exact Except.noConfusion hB)
        rename_i l
        intro hB
        obtain ⟨⟨st5, ralt, aalt⟩, h3, hC⟩ := exceptBind_eq_ok hB
        clear hB
        obtain ⟨haalt, hout3⟩ := genSeq_frame l _ st5 ralt aalt h3
        cases hC
        refine ⟨by rw [hta, hacons, haalt], outExt_push _ ?_⟩
        exact outExt_trans houtTo3 (outExt_trans (outExt_push _ outExt_refl) hout3)
  | .forRangeStatement it low op high body, st, st', r, a => fun h => by
      obtain ⟨⟨s, st1⟩, h1, h⟩ := exceptBind_eq_ok h
      obtain ⟨⟨st2, rlow, alow⟩, h2, h⟩ := exceptBind_eq_ok h
      obtain ⟨⟨st3, rhigh, ahigh⟩, h3, h⟩ := exceptBind_eq_ok h
      obtain ⟨⟨st5, rbody, abody⟩, h4, h⟩ := exceptBind_eq_ok h
      obtain ⟨halow, hout2⟩ := gen_frame low st1 st2 rlow alow h2
      obtain ⟨hahigh, hout3⟩ := gen_frame high st2 st3 rhigh ahigh h3
      obtain ⟨habody, hout4⟩ := genSeq_frame body _ st5 rbody abody h4
      cases h
      refine ⟨by rw [halow, hahigh, habody], outExt_push _ ?_⟩
      exact outExt_trans (outExt_of_eq (targetName_frame h1))
        (outExt_trans hout2 (outExt_trans hout3
          (outExt_trans (outExt_push _ outExt_refl) hout4)))
  | .forStatement it coll body, st, st', r, a => fun h => by
      obtain ⟨⟨st1, rit, ait⟩, h1, h⟩ := exceptBind_eq_ok h
      obtain ⟨⟨st2, rcoll, acoll⟩, h2, h⟩ := exceptBind_eq_ok h
      obtain ⟨⟨st4, rbody, abody⟩, h3, h⟩ := exceptBind_eq_ok h
      obtain ⟨hait, hout1⟩ := gen_frame it st st1 rit ait h1
      obtain ⟨hacoll, hout2⟩ := gen_frame coll st1 st2 rcoll acoll h2
      obtain ⟨habody, hout3⟩ := genSeq_frame body _ st4 rbody abody h3
      cases h
      refine ⟨by rw [hait, hacoll, habody], outExt_push _ ?_⟩
      exact outExt_trans hout1 (outExt_trans hout2
        (outExt_trans (outExt_push _ outExt_refl) hout3))
  | .binaryExpression op l rr ty, st, st', r, a => fun h => by
      obtain ⟨⟨st1, rl, al⟩, h1, h⟩ := exceptBind_eq_ok h
      obtain ⟨⟨st2, rrv, ar⟩, h2, h⟩ := exceptBind_eq_ok h
      obtain ⟨hal, hout1⟩ := gen_frame l st st1 rl al h1
      obtain ⟨har, hout2⟩ := gen_frame rr st1 st2 rrv ar h2
      cases h
      exact ⟨by rw [hal, har], outExt_trans hout1 hout2⟩
  | .unaryExpression op o ty, st, st', r, a => fun h => by
      obtain ⟨⟨st1, ro, ao⟩, h1, h⟩ := exceptBind_eq_ok h
      obtain ⟨hao, hout1⟩ := gen_frame o st st1 ro ao h1
      cases h
      refine ⟨by rw [hao], ?_⟩
      split
      · exact outExt_push _ hout1
      · exact hout1
  | .functionDeclaration f, st, st', r, a => fun h0 => by
      obtain ⟨⟨st1, rf, af⟩, h1, hA⟩ := exceptBind_eq_ok h0
      clear h0
      obtain ⟨-, hout1⟩ := gen_frame f st st1 rf af h1
      clear h1
      revert hA
      cases f <;> try (intro hA; exact Except.noConfusion hA)
      rename_i j n ps body ty
      intro hA
      obtain ⟨⟨st2, rps, aps⟩, h2, hB⟩ := exceptBind_eq_ok hA
      clear hA
      obtain ⟨haps, hout2⟩ := genSeq_frame ps st1 st2 rps aps h2
      clear h2
      revert hB
      cases body with
      | none => exact fun hB => Except.noConfusion hB
      | some b =>
        intro hB
        obtain ⟨⟨st4, rb, ab⟩, h3, hC⟩ := exceptBind_eq_ok hB
        obtain ⟨hab, hout3⟩ := genSeq_frame b _ st4 rb ab h3
        cases hC
        refine ⟨by rw [haps, hab], outExt_push _ ?_⟩
        exact outExt_trans hout1 (outExt_trans hout2
          (outExt_trans (outExt_push _ outExt_refl) hout3))
  | .integerLiteral v, st, st', r, a => fun h => by
      obtain ⟨s, h1, h⟩ := exceptBind_eq_ok h
      cases h
      exact ⟨rfl, outExt_refl⟩
  | .booleanLiteral v, st, st', r, a => fun h => by
      obtain ⟨s, h1, h⟩ := exceptBind_eq_ok h
      cases h
      exact ⟨rfl, outExt_refl⟩
  | .stringLiteral v, st, st', r, a => fun h => by
      rw [gen_stringLiteral_def] at h
      split at h <;> (cases h; exact ⟨rfl, outExt_refl⟩)

theorem genSeq_frame : ∀ (l : List Val) (st st' : GenSt) (rs afters : List Val),
    genSeq l st = .ok (st', rs, afters) → afters = l ∧ ∃ d, st'.output = st.output ++ d
  | [], st, st', rs, afters => fun h => by
      cases h
      exact ⟨rfl, outExt_refl⟩
  | v :: vs, st, st', rs, afters => fun h => by
      obtain ⟨⟨st1, r, a⟩, h1, h⟩ := exceptBind_eq_ok h
      obtain ⟨⟨st2, rs2, as2⟩, h2, h⟩ := exceptBind_eq_ok h
      obtain ⟨ha, hout1⟩ := gen_frame v st st1 r a h1
      obtain ⟨has, hout2⟩ := genSeq_frame vs st1 st2 rs2 as2 h2
      cases h
      exact ⟨by rw [ha, has], outExt_trans hout1 hout2⟩

end


/-! Defining equations of the optimizer, restated for the rules the claims
quantify over, plus `flatMap` reasoning lemmas. -/

theorem exceptBind_ok {ε α β : Type} (a : α) (f : α → Except ε β) :
    ((Except.ok a : Except ε α) >>= f) = f a := rfl

theorem optimize_program_def (stmts : List Val) :
    optimize (.program stmts) = (do pure (Val.program (← flatOpt stmts))) := rfl

theorem optimize_assignment_def (tgt src : Val) :
    optimize (.assignment tgt src) = (do
      let src2 ← optimize src
      let tgt2 ← optimize tgt
      if jsStrictEq src2 tgt2 then pure (.list []) else pure (.assignment tgt2 src2)) := rfl

theorem optimize_whileStatement_def (t : Val) (body : List Val) :
    optimize (.whileStatement t body) = (do
      let t2 ← optimize t
      if jsStrictEq t2 (.bool false) then pure (.list [])
      else do pure (.whileStatement t2 (← flatOpt body))) := rfl

theorem optimize_var_def (i : ℕ) (n : String) (ty : Val) :
    optimize (.var i n ty) = .ok (.var i n ty) := rfl

theorem optAltList_def (l : List Val) :
    optAltList (.list l) = (do pure (Val.list (← flatOpt l))) := rfl

theorem optimize_if_def (t : Val) (cons : List Val) (alt : Val) :
    optimize (.ifStatement t cons alt) = (do
      let t2 ← optimize t
      let cons2 ← flatOpt cons
      let alt2 ←
        (if strEndsWith ((kindOf alt).getD "") "IfStatement" then optimize alt
         else optAltList alt)
      match t2 with
      | .bool b => if b then pure (.list cons2) else pure alt2
      | _ => pure (.ifStatement t2 cons2 alt2)) := rfl

theorem flatOpt_nil : flatOpt [] = .ok [] := rfl

theorem flatOpt_cons (v : Val) (vs : List Val) :
    flatOpt (v :: vs) = (do
      let r ← optimize v
      let rest ← flatOpt vs
      pure (flatten1 r ++ rest)) := rfl

theorem flatOpt_append (xs ys : List Val) :
    flatOpt (xs ++ ys) = (do
      let a ← flatOpt xs
      let b ← flatOpt ys
      pure (a ++ b)) := by
  induction xs with
  | nil =>
      rw [List.nil_append, flatOpt_nil, exceptBind_ok]
      cases h : flatOpt ys with
      | error e => rfl
      | ok b => rfl
  | cons x xs ih =>
      rw [List.cons_append, flatOpt_cons, flatOpt_cons]
      cases hx : optimize x with
      | error e => rfl
      | ok r =>
          rw [exceptBind_ok, exceptBind_ok, ih]
          cases ha : flatOpt xs with
          | error e => rfl
          | ok a =>
              rw [exceptBind_ok, exceptBind_ok]
              cases hb : flatOpt ys with
              | error e => rfl
              | ok b =>
                  show Except.ok (flatten1 r ++ (a ++ b)) = Except.ok (flatten1 r ++ a ++ b)
                  rw [List.append_assoc]

/-- The claim C1 theorem below compares the optimizer with this host
evaluation; a self-assignment reduces to the empty splice. -/
theorem optimize_self_assignment (i : ℕ) (n : String) (ty : Val) :
    optimize (.assignment (.var i n ty) (.var i n ty)) = .ok (.list []) := by
  have hc : jsStrictEq (Val.var i n ty) (Val.var i n ty) = true := by simp [jsStrictEq]
  rw [optimize_assignment_def, optimize_var_def, exceptBind_ok, exceptBind_ok, if_pos hc]
  rfl

/-! Claim theorems: the optimizer. -/

/-- C1: for numeric literal operands `a` and `b` (float-class Number or
integer-class BigInt) and every operator in
`{+,-,*,/,**,<,<=,==,!=,>=,>}`, optimizing `BinaryExpression(op,a,b)`
agrees exactly with evaluating `op` on `a` and `b` in the host numeric
semantics: whenever the host evaluation yields a value, the optimizer
returns precisely that literal (and when the host evaluation throws — a
mixed Number/BigInt arithmetic `TypeError`, a BigInt `RangeError` — the
optimizer throws the same error). -/
theorem spec_C1_constant_folding (op : String) (a b ty : Val)
    (hop : op ∈ ["+", "-", "*", "/", "**", "<", "<=", "==", "!=", ">=", ">"])
    (ha : isNumericConst a = true) (hb : isNumericConst b = true) :
    optimize (.binaryExpression (.str op) a b ty) = hostEval op a b := by
  simp only [List.mem_cons, List.mem_singleton, List.not_mem_nil, or_false] at hop
  cases a <;> simp only [isNumericConst, Bool.false_eq_true] at ha <;>
    cases b <;> simp only [isNumericConst, Bool.false_eq_true] at hb <;>
    rcases hop with rfl | rfl | rfl | rfl | rfl | rfl | rfl | rfl | rfl | rfl | rfl <;> rfl

/-- C1 witness: folding `5 + 8` (the spec's example, here on same-class
operands) yields the literal `13`. -/
theorem spec_C1_witness :
    optimize (.binaryExpression (.str "+") (.big 5) (.big 8) .undef)
        = hostEval "+" (.big 5) (.big 8)
    ∧ hostEval "+" (.big 5) (.big 8) = .ok (.big 13) :=
  ⟨spec_C1_constant_folding "+" (.big 5) (.big 8) .undef (by simp) rfl rfl, rfl⟩

/-- C2 (failing input): the `ForRangeStatement` rule falls through without
returning the node when the loop is not deleted, so `optimize` yields
JavaScript `undefined`, and a second application of `optimize` then throws
(`node.kind` on `undefined`) — `optimize (optimize n)` is not even defined,
let alone equal to `optimize n`. -/
theorem spec_C2_forRange_not_idempotent :
    optimize (.forRangeStatement (.var 1 "i" .undef) (.num 1) (.str "...") (.num 2) [])
      = .ok .undef
    ∧ (optimize (.forRangeStatement (.var 1 "i" .undef) (.num 1) (.str "...") (.num 2) [])
        >>= optimize) = .error .typeError
    ∧ (Except.error JSErr.typeError : Except JSErr Val) ≠ .ok .undef :=
  ⟨rfl, rfl, fun h => Except.noConfusion h⟩

/-- C3 counterexample: with the consequent `C = [x = x]` (a self-assignment)
and alternate `A = []`, `optimize(IfStatement(true, C, A))` is the empty
statement list — the *optimized* consequent — and not `C` itself, refuting
the claim's equation `optimize(IfStatement(true, C, A)) = C` for arbitrary
`C`. -/
theorem spec_C3_counterexample :
    optimize (.ifStatement (.bool true)
        [.assignment (.var 1 "x" .undef) (.var 1 "x" .undef)] (.list []))
      = .ok (.list [])
    ∧ (Except.ok (Val.list []) : Except JSErr Val)
      ≠ .ok (.list [.assignment (.var 1 "x" .undef) (.var 1 "x" .undef)]) :=
  ⟨rfl, by simp⟩

/-- C3 as amended: when the test is the literal `true` (resp. `false`), the
whole `IfStatement` collapses to the *optimized* taken branch — each of its
statements optimized and flattened one level — and the untaken branch is
discarded from the result; the result equals the branch itself exactly when
optimization leaves its statements unchanged. -/
theorem spec_C3_dead_branch (C A c a : List Val)
    (hc : flatOpt C = .ok c) (ha : flatOpt A = .ok a) :
    optimize (.ifStatement (.bool true) C (.list A)) = .ok (.list c)
    ∧ optimize (.ifStatement (.bool false) C (.list A)) = .ok (.list a) := by
  have halt : optAltList (.list A) = .ok (.list a) := by
    rw [optAltList_def, ha]; rfl
  constructor
  · have key : optimize (.ifStatement (.bool true) C (.list A)) = (do
        let c2 ← flatOpt C
        let _ ← optAltList (.list A)
        pure (Val.list c2)) := rfl
    rw [key, hc, exceptBind_ok, halt, exceptBind_ok]
    rfl
  · have key : optimize (.ifStatement (.bool false) C (.list A)) = (do
        let _ ← flatOpt C
        let a2 ← optAltList (.list A)
        pure a2) := rfl
    rw [key, hc, exceptBind_ok, halt, exceptBind_ok]
    rfl

/-- C3 witness: a branch whose statements are fixed points of `optimize` is
returned as-is. -/
theorem spec_C3_witness :
    optimize (.ifStatement (.bool true) [.breakStatement] (.list [.increment (.var 1 "x" .undef)]))
      = .ok (.list [.breakStatement])
    ∧ optimize (.ifStatement (.bool false) [.breakStatement]
        (.list [.increment (.var 1 "x" .undef)]))
      = .ok (.list [.increment (.var 1 "x" .undef)]) :=
  spec_C3_dead_branch [.breakStatement] [.increment (.var 1 "x" .undef)]
    [.breakStatement] [.increment (.var 1 "x" .undef)] rfl rfl

/-- C4: a `WhileStatement` whose test optimizes to the literal `false` is
deleted entirely — the result is the empty statement list for *every* body,
even one whose own optimization would throw (the body is never visited). -/
theorem spec_C4_while_false (t : Val) (Body : List Val)
    (h : optimize t = .ok (.bool false)) :
    optimize (.whileStatement t Body) = .ok (.list []) := by
  rw [optimize_whileStatement_def, h, exceptBind_ok,
    if_pos (show jsStrictEq (Val.bool false) (Val.bool false) = true by rfl)]
  rfl

/-- C4 witness: `while false` around a body containing a short return — a
statement whose optimization throws — is still deleted without the body
being optimized. -/
theorem spec_C4_witness :
    optimize (.whileStatement (.bool false) [.returnStatement .undef]) = .ok (.list [])
    ∧ flatOpt [.returnStatement .undef] = .error .typeError :=
  ⟨spec_C4_while_false (.bool false) [.returnStatement .undef] rfl, rfl⟩

/-- C5: optimizing a `Program` deletes a self-assignment `x = x` (source and
target the identical Variable entity) wherever it occurs in the statement
list, and the surrounding statements contribute their own optimizations in
the original order. -/
theorem spec_C5_self_assignment (i : ℕ) (n : String) (ty : Val)
    (L1 L2 l1 l2 : List Val) (h1 : flatOpt L1 = .ok l1) (h2 : flatOpt L2 = .ok l2) :
    optimize (.program (L1 ++ .assignment (.var i n ty) (.var i n ty) :: L2))
      = .ok (.program (l1 ++ l2)) := by
  have hmid : flatOpt (Val.assignment (.var i n ty) (.var i n ty) :: L2) = .ok l2 := by
    rw [flatOpt_cons, optimize_self_assignment, exceptBind_ok, h2, exceptBind_ok]
    rfl
  rw [optimize_program_def, flatOpt_append, h1, exceptBind_ok, hmid, exceptBind_ok]
  rfl

/-- C5 witness: `x = x` removed from the middle of a program (the repo's own
test case "removes x=x in middle"). -/
theorem spec_C5_witness :
    optimize (.program [.increment (.var 1 "x" .undef),
        .assignment (.var 1 "x" .undef) (.var 1 "x" .undef),
        .increment (.var 1 "x" .undef)])
      = .ok (.program [.increment (.var 1 "x" .undef), .increment (.var 1 "x" .undef)]) :=
  spec_C5_self_assignment 1 "x" .undef
    [.increment (.var 1 "x" .undef)] [.increment (.var 1 "x" .undef)]
    [.increment (.var 1 "x" .undef)] [.increment (.var 1 "x" .undef)] rfl rfl

/-- C6 counterexample: `ReturnStatement` is *not* passed through unmodified:
its rule recurses into the expression, so `return 1n + 2n` comes back with
its expression rewritten to the folded literal `3n`, different in content
from the input node. -/
theorem spec_C6_counterexample :
    optimize (.returnStatement (.binaryExpression (.str "+") (.big 1) (.big 2) .undef))
      = .ok (.returnStatement (.big 3))
    ∧ (Except.ok (Val.returnStatement (.big 3)) : Except JSErr Val)
      ≠ .ok (.returnStatement (.binaryExpression (.str "+") (.big 1) (.big 2) .undef)) :=
  ⟨rfl, by simp⟩

/-- C6 as amended: a node whose kind has *no entry in the `optimizers`
table* — identifiers, literals, sentinels, `AddAssignment`, and so on — is
returned unchanged as the very node passed in; of the claim's examples this
holds for break statements and literals, but return statements and
increments have registered rules that recurse into their children. -/
theorem spec_C6_unregistered_passthrough (v : Val)
    (hrule : hasOptimizerRule v = false) (hv : v ≠ .undef) :
    optimize v = .ok v := by
  cases v <;> first
    | rfl
    | exact absurd rfl hv
    | simp [hasOptimizerRule, kindOf] at hrule

/-- C6 witness: a Variable reference passes through with its identity. -/
theorem spec_C6_witness :
    hasOptimizerRule (.var 1 "x" .undef) = false
    ∧ optimize (.var 1 "x" .undef) = .ok (.var 1 "x" .undef) :=
  ⟨rfl, spec_C6_unregistered_passthrough (.var 1 "x" .undef) rfl (fun h => Val.noConfusion h)⟩

/-- C10: a `ReturnStatement` with an absent expression — which the data
model permits and the generator emits as a bare `return;` — makes `optimize`
throw: the rule recurses into the missing expression and the dispatcher
dereferences `.kind` on `undefined`. -/
theorem spec_C10_short_return_throws :
    optimize (.returnStatement .undef) = .error .typeError
    ∧ generate (.program [.returnStatement .undef]) = .ok "return;" :=
  ⟨rfl, rfl⟩


/-! Claim theorems: the generator. -/

theorem gen_var_def (i : ℕ) (n : String) (ty : Val) (st : GenSt) :
    gen (.var i n ty) st = (do
      let (s, st1) ← targetName (.var i n ty) st
      pure (st1, Val.str s, Val.var i n ty)) := rfl

theorem targetName_var (i : ℕ) (n : String) (ty : Val) (st : GenSt) :
    targetName (.var i n ty) st =
      (match List.lookup (some n) st.nameMap with
       | some k => .ok (mangled n k, st)
       | none => .ok (mangled n (st.nameMap.length + 1),
                      { st with nameMap := st.nameMap ++ [(some n, st.nameMap.length + 1)] })) :=
  rfl

theorem lookup_append_none {α β : Type} [BEq α] (l p : List (α × β)) (k : α)
    (h : List.lookup k l = none) : List.lookup k (l ++ p) = List.lookup k p := by
  induction l with
  | nil => simp
  | cons x xs ih =>
      obtain ⟨xa, xb⟩ := x
      rw [List.cons_append]
      cases hk : k == xa with
      | true => simp [List.lookup, hk] at h
      | false =>
          simp only [List.lookup, hk] at h ⊢
          exact ih h

theorem lookup_singleton_self {β : Type} (n : String) (v : β) :
    List.lookup (some n) [(some n, v)] = some v := by
  simp [List.lookup]

/-- C7: when the live generator (`src/generator.js`, the one matching the
`src/core.js` IR shapes) emits an `IfStatement` whose alternate is itself an
IfStatement node, the output contains the line `} else` (no opening brace)
immediately followed by the nested if's own `if (...) {` header — so the
joined output matches `} else\s*if` — while an `IfStatement` whose
alternate is a plain statement list gets `} else {` followed by the
alternate's lines and a closing `}`.  (The first part assumes the nested
test's generation emits no output lines of its own, true of every
expression form.) -/
theorem spec_C7_else_if_emission :
    (∀ (t : Val) (cons : List Val) (t2 : Val) (cons2 : List Val) (alt2 : Val)
       (st st' : GenSt) (r a : Val),
       (∀ st0 st1 r1 a1, gen t2 st0 = .ok (st1, r1, a1) → st1.output = st0.output) →
       gen (.ifStatement t cons (.ifStatement t2 cons2 alt2)) st = .ok (st', r, a) →
       ∃ (pre : List String) (w : String) (rest : List String),
         st'.output = pre ++ "\x7d else" :: s!"if ({w}) \x7b" :: rest)
    ∧ (∀ (t : Val) (cons A : List Val) (st st' : GenSt) (r a : Val),
       gen (.ifStatement t cons (.list A)) st = .ok (st', r, a) →
       ∃ pre mid, st'.output = pre ++ "\x7d else \x7b" :: (mid ++ ["\x7d"])) := by
  constructor
  · intro t cons t2 cons2 alt2 st st' r a hquiet h0
    obtain ⟨⟨st1, rt, ta⟩, h1, hA⟩ := exceptBind_eq_ok h0
    clear h0
    obtain ⟨⟨st3, rcons, acons⟩, h2, hB⟩ := exceptBind_eq_ok hA
    clear hA
    dsimp only at hB
    rw [if_pos (show strEndsWith
        ((kindOf (Val.ifStatement t2 cons2 alt2)).getD "") "IfStatement" = true from rfl)] at hB
    obtain ⟨⟨st5, ralt, aalt⟩, h3, hC⟩ := exceptBind_eq_ok hB
    clear hB
    cases hC
    obtain ⟨⟨stA, rt2, ta2⟩, h3a, hD⟩ := exceptBind_eq_ok h3
    clear h3
    obtain ⟨⟨stB, rc2, ac2⟩, h3b, hE⟩ := exceptBind_eq_ok hD
    clear hD
    have hAout : stA.output = (push "\x7d else" st3).output := hquiet _ _ _ _ h3a
    obtain ⟨-, dB, hdB⟩ := genSeq_frame cons2 _ stB rc2 ac2 h3b
    have hrest : ∃ d, st5.output = stB.output ++ d := by
      dsimp only at hE
      by_cases hends2 : strEndsWith ((kindOf alt2).getD "") "IfStatement"
      · rw [if_pos hends2] at hE
        obtain ⟨⟨stC, rr2, aa2⟩, h4, hF⟩ := exceptBind_eq_ok hE
        obtain ⟨-, hout⟩ := gen_frame alt2 _ stC rr2 aa2 h4
        cases hF
        exact outExt_trans (outExt_push _ outExt_refl) hout
      · rw [if_neg hends2] at hE
        clear h3a h3b
        revert hE
        cases alt2 <;> try (intro hE; exact Except.noConfusion hE)
        rename_i l2
        intro hE
        obtain ⟨⟨stC, rr2, aa2⟩, h4, hF⟩ := exceptBind_eq_ok hE
        obtain ⟨-, hout⟩ := genSeq_frame l2 _ stC rr2 aa2 h4
        cases hF
        exact outExt_push _ (outExt_trans (outExt_push _ outExt_refl) hout)
    obtain ⟨dR, hdR⟩ := hrest
    refine ⟨st3.output, jsTemplate rt2, dB ++ dR, ?_⟩
    rw [hdR, hdB, pushOutput, hAout, pushOutput]
    simp [List.append_assoc]
  · intro t cons A st st' r a h0
    obtain ⟨⟨st1, rt, ta⟩, h1, hA⟩ := exceptBind_eq_ok h0
    clear h0
    obtain ⟨⟨st3, rcons, acons⟩, h2, hB⟩ := exceptBind_eq_ok hA
    clear hA
    dsimp only at hB
    rw [if_neg (show ¬ strEndsWith
        ((kindOf (Val.list A)).getD "") "IfStatement" = true by
      rw [show strEndsWith ((kindOf (Val.list A)).getD "") "IfStatement" = false from rfl]
      simp)] at hB
    obtain ⟨⟨st5, ralt, aalt⟩, h4, hF⟩ := exceptBind_eq_ok hB
    clear hB
    obtain ⟨-, dA, hdA⟩ := genSeq_frame A _ st5 ralt aalt h4
    cases hF
    refine ⟨st3.output, dA, ?_⟩
    rw [pushOutput, hdA, pushOutput]
    simp [List.append_assoc]

/-- C7 witness: generating `if 🥗 : break ; 🍰 🍲 : break ;` — an if whose
alternate is another IfStatement — produces `} else` directly followed by
`if (false) {`. -/
theorem spec_C7_witness :
    ∃ (pre : List String) (w : String) (rest : List String),
      ["if (true) \x7b", "break;", "\x7d else", "if (false) \x7b", "break;",
       "\x7d else \x7b", "\x7d"]
        = pre ++ "\x7d else" :: s!"if ({w}) \x7b" :: rest :=
  spec_C7_else_if_emission.1 (.bool true) [.breakStatement] (.bool false)
    [.breakStatement] (.list []) ⟨[], []⟩
    ⟨[], ["if (true) \x7b", "break;", "\x7d else", "if (false) \x7b", "break;",
          "\x7d else \x7b", "\x7d"]⟩
    (.ifStatement (.bool true) [.breakStatement]
      (.ifStatement (.bool false) [.breakStatement] (.list [])))
    (.ifStatement (.bool true) [.breakStatement]
      (.ifStatement (.bool false) [.breakStatement] (.list [])))
    (fun st0 st1 r1 a1 h => by cases h; rfl) rfl

/-- C8: `targetName` keys the mangling table by the entity's *name string*,
not by entity identity: two Variable entities with the same name — whatever
their identities and types — are emitted with the same numeric suffix, and a
name not yet in the table is allocated suffix `nameMap.size + 1`, so
suffixes run 1, 2, 3, ... in first-encounter order. -/
theorem spec_C8_name_keyed_mangling :
    (∀ (i j : ℕ) (n : String) (ty ty2 : Val) (st st1 st2 : GenSt)
       (s1 s2 : String) (a1 a2 : Val),
       gen (.var i n ty) st = .ok (st1, .str s1, a1) →
       gen (.var j n ty2) st1 = .ok (st2, .str s2, a2) → s1 = s2)
    ∧ (∀ (i : ℕ) (n : String) (ty : Val) (st : GenSt),
       List.lookup (some n) st.nameMap = none →
       gen (.var i n ty) st
         = .ok ({ st with nameMap := st.nameMap ++ [(some n, st.nameMap.length + 1)] },
                .str (mangled n (st.nameMap.length + 1)), .var i n ty)) := by
  constructor
  · intro i j n ty ty2 st st1 st2 s1 s2 a1 a2 h1 h2
    rw [gen_var_def, targetName_var] at h1 h2
    cases hl : List.lookup (some n) st.nameMap with
    | some k =>
        rw [hl] at h1
        cases h1
        rw [hl] at h2
        cases h2
        rfl
    | none =>
        rw [hl] at h1
        cases h1
        rw [show List.lookup (some n)
              (st.nameMap ++ [(some n, st.nameMap.length + 1)])
              = some (st.nameMap.length + 1) from by
            rw [lookup_append_none _ _ _ hl, lookup_singleton_self]] at h2
        cases h2
        rfl
  · intro i n ty st hl
    rw [gen_var_def, targetName_var, hl]
    rfl

/-- C8 witness: a fresh name in an empty table gets suffix 1. -/
theorem spec_C8_witness :
    gen (.var 7 "x" .undef) { nameMap := [], output := [] }
      = .ok ({ nameMap := [(some "x", 1)], output := [] },
             .str (mangled "x" 1), .var 7 "x" .undef) :=
  spec_C8_name_keyed_mangling.2 7 "x" .undef ⟨[], []⟩ rfl

/-- C9: generation never mutates the IR — for every node, the tree as it
stands after a successful `gen` call (rebuilt from exactly the children the
handlers visit) is the input tree itself; the only state `generate` touches
is its name-mangling table and output buffer, created fresh in the call. -/
theorem spec_C9_generator_never_mutates (v : Val) (st st' : GenSt) (r a : Val)
    (h : gen v st = .ok (st', r, a)) : a = v :=
  (gen_frame v st st' r a h).1

/-- C9 witness: a concrete program generates successfully and its after-tree
is the program itself. -/
theorem spec_C9_witness :
    gen (.program [.increment (.var 1 "x" .undef)]) ⟨[], []⟩
      = .ok (⟨[(some "x", 1)], ["x_1++;"]⟩,
             .program [.increment (.var 1 "x" .undef)],
             .program [.increment (.var 1 "x" .undef)])
    ∧ Val.program [.increment (.var 1 "x" .undef)]
        = .program [.increment (.var 1 "x" .undef)] :=
  ⟨rfl, spec_C9_generator_never_mutates _ ⟨[], []⟩ ⟨[(some "x", 1)], ["x_1++;"]⟩
      (.program [.increment (.var 1 "x" .undef)]) _ rfl⟩

end SnackScript
